import Mathlib

/-!
Verification of the ADEA argument-graph core (`src/graph_node.py`,
`src/argument_graph.py`, `src/stance.py`) against its specification.

Modelling conventions (shallow embedding):
* Python sets of strings are modelled as `List String`; Python sets of
  `GraphNode` objects compare elements with `__eq__`, which is label-hash
  equality, so they are modelled as lists of *object indices* deduplicated
  by label (`insertByLabel` / `setAddAll` mirror `set.add` / `set.update`:
  a later element with an equal label is dropped, the first stays).
* A node *object* is identified by its index into `all_nodes`; this keeps
  the distinction between two distinct objects carrying the same label,
  which the Python code allows.
* `dict` lookup (`_label_to_node`) maps each label to the node written
  last, because the dict comprehension overwrites earlier entries;
  `lastLabelIdx` scans indices from the top for exactly this reason.
* Python exceptions are modelled with `Option`; the recursive
  `ancestor_nodes` property, which has no termination guarantee in the
  source, is modelled with explicit fuel counting recursion depth
  (`ancNodes fuel i = none` for every fuel means the recursion exceeds
  every finite depth, i.e. the Python call never returns).
-/

namespace ADEA

/-- `GraphNodeCategory` from `src/graph_node.py`. -/
inductive GraphNodeCategory
  | Z
  | NZ
  | FAQ
  | OTHER
deriving DecidableEq, Repr

/-- `Stance` from `src/stance.py`. -/
inductive Stance
  | PRO
  | CON
  | OTHER
deriving DecidableEq, Repr

/-- Whitespace test matching Python `str.strip`'s default character set. -/
def isSpaceChar (c : Char) : Bool :=
  c == ' ' || c == '\t' || c == '\n' || c == '\r'

/-- Python `str.strip()`: drop leading and trailing whitespace. -/
def pyStrip (s : String) : String :=
  ⟨((s.data.dropWhile isSpaceChar).reverse.dropWhile isSpaceChar).reverse⟩

/-- `GraphNode` dataclass fields from `src/graph_node.py` (raw fields only;
the five derived link sets are computed per graph, see `parentObjs` etc.). -/
structure GraphNode where
  label : String
  full_text : String := ""
  parents : List String := []
  label_name : String := ""
  paraphrase : String := ""
  summary : String := ""
  groups : List String := []
  rating : Int := -1
  reaction_to_argument : Int := -1
  category : GraphNodeCategory := GraphNodeCategory.OTHER
  stance : Stance := Stance.OTHER
  samples : List String := []
  similars : List String := []
deriving DecidableEq, Repr

instance : Inhabited GraphNode := ⟨{ label := "", full_text := "" }⟩

/-- `GraphNode._cleanup_attributes`: strip the label, strip and deduplicate
`parents` and `groups`, and default a blank `label_name` to the label. -/
def cleanupAttributes (n : GraphNode) : GraphNode :=
  { n with
    label := pyStrip n.label
    parents := (n.parents.map pyStrip).dedup
    groups := (n.groups.map pyStrip).dedup
    label_name := if pyStrip n.label_name = "" then pyStrip n.label else pyStrip n.label_name }

/-- `GraphNode._match_constraints`: discard the node's own label from
`groups` and `parents` (with a printed warning, which has no model
content). `similars` is left untouched by the source. -/
def matchConstraints (n : GraphNode) : GraphNode :=
  { n with
    groups := n.groups.filter (fun s => s ≠ n.label)
    parents := n.parents.filter (fun s => s ≠ n.label) }

/-- `GraphNode.__post_init__`: cleanup then self-reference removal. -/
def postInit (n : GraphNode) : GraphNode :=
  matchConstraints (cleanupAttributes n)

/-- `GraphNode.__hash__`: Python hashes the label string; the string hash
function is abstracted as a parameter `h`. -/
def nodeHash (h : String → Int) (n : GraphNode) : Int :=
  h n.label

/-- `GraphNode.__eq__`: two `GraphNode`s compare equal iff their label
hashes coincide (the `isinstance` test always passes between nodes). -/
def nodeEq (h : String → Int) (a b : GraphNode) : Bool :=
  decide (nodeHash h a = nodeHash h b)

/-- `GraphNode.as_tuple`: `next(iter(self.groups))` raises `StopIteration`
on an empty set (modelled as `none`); otherwise some group label is
returned (modelled as the head of the list). -/
def as_tuple (n : GraphNode) : Option (String × String × String × String × Int × String) :=
  match n.groups with
  | [] => none
  | a :: _ => some (n.label, n.summary, n.paraphrase, n.full_text, n.rating, a)

/-- `ArgumentGraph` dataclass: the six node partitions. -/
structure ArgumentGraph where
  introduction_nodes : List GraphNode
  transition_nodes : List GraphNode
  z_arguments_nodes : List GraphNode
  group_nodes : List GraphNode
  nz_arguments_nodes : List GraphNode
  faq_nodes : List GraphNode
deriving DecidableEq, Repr

/-- The first five partitions in `all_nodes` order (everything before the
FAQ partition). -/
def frontNodes (g : ArgumentGraph) : List GraphNode :=
  g.introduction_nodes ++ (g.transition_nodes ++ (g.z_arguments_nodes ++
    (g.group_nodes ++ g.nz_arguments_nodes)))

/-- `ArgumentGraph.all_nodes`: concatenation of the six partitions in
declaration order (introduction, transition, z, group, nz, FAQ). -/
def ArgumentGraph.all_nodes (g : ArgumentGraph) : List GraphNode :=
  frontNodes g ++ g.faq_nodes

/-- In Python every `GraphNode` handed to `ArgumentGraph` has already run
`__post_init__`; this constructor makes that explicit. -/
def mkArgumentGraph (intro trans z grp nz faq : List GraphNode) : ArgumentGraph :=
  ⟨intro.map postInit, trans.map postInit, z.map postInit,
   grp.map postInit, nz.map postInit, faq.map postInit⟩

/-- Number of node objects in the graph. -/
def numNodes (g : ArgumentGraph) : Nat :=
  g.all_nodes.length

/-- The node object at index `i` of `all_nodes`. -/
def nodeAt (g : ArgumentGraph) (i : Nat) : GraphNode :=
  g.all_nodes.getD i default

/-- The label of the node object at index `i`. -/
def labelAt (g : ArgumentGraph) (i : Nat) : String :=
  (nodeAt g i).label

/-- Index of the last node (scanning indices `k-1, k-2, …, 0`) whose label
is `l`.  The `_label_to_node` dict comprehension lets later entries
overwrite earlier ones, so the dict's value for `l` is the node at this
index. -/
def lastLabelIdx (g : ArgumentGraph) (l : String) : Nat → Option Nat
  | 0 => none
  | k + 1 => if labelAt g k = l then some k else lastLabelIdx g l k

/-- Index of the node object that `_label_to_node` associates to `l`. -/
def repIdx (g : ArgumentGraph) (l : String) : Option Nat :=
  lastLabelIdx g l (numNodes g)

/-- `ArgumentGraph.get_node_for_label`: dict lookup with `None` default. -/
def getNodeForLabel (g : ArgumentGraph) (l : String) : Option GraphNode :=
  (repIdx g l).map (nodeAt g)

/-- Python `set.add` on a set of `GraphNode`s: the element is dropped when
an element with an equal label (i.e. an `__eq__`-equal node) is already
present; the first-inserted object stays. -/
def insertByLabel (g : ArgumentGraph) (acc : List Nat) (j : Nat) : List Nat :=
  if acc.any (fun k => labelAt g k == labelAt g j) then acc else acc ++ [j]

/-- Python `set.update` (repeated `set.add`). -/
def setAddAll (g : ArgumentGraph) (acc js : List Nat) : List Nat :=
  js.foldl (insertByLabel g) acc

/-- Labels of a list of node objects; Python membership tests on sets of
nodes (`node in s`) compare by label, i.e. they test `node.label ∈
labelsOf s`. -/
def labelsOf (g : ArgumentGraph) (js : List Nat) : List String :=
  js.map (labelAt g)

/-- `parent_nodes` of object `i` after `_init_node_child_and_parent_references`:
each raw parent label resolved through the index, unresolved labels
dropped. -/
def parentObjs (g : ArgumentGraph) (i : Nat) : List Nat :=
  ((nodeAt g i).parents.filterMap (repIdx g)).dedup

/-- `child_nodes` of object `i`: children attach only to the object the
label index resolves to (the last object with that label); it receives
every object that lists `i`'s label among its parents. -/
def childObjs (g : ArgumentGraph) (i : Nat) : List Nat :=
  if repIdx g (labelAt g i) = some i then
    setAddAll g []
      ((List.range (numNodes g)).filter (fun j => decide (labelAt g i ∈ (nodeAt g j).parents)))
  else []

/-- `group_nodes` of object `i` after `_init_node_group_references`. -/
def groupObjs (g : ArgumentGraph) (i : Nat) : List Nat :=
  ((nodeAt g i).groups.filterMap (repIdx g)).dedup

/-- `group_member_nodes` of object `i` (mirror of `childObjs` over
`groups`). -/
def groupMemberObjs (g : ArgumentGraph) (i : Nat) : List Nat :=
  if repIdx g (labelAt g i) = some i then
    setAddAll g []
      ((List.range (numNodes g)).filter (fun j => decide (labelAt g i ∈ (nodeAt g j).groups)))
  else []

/-- `similar_nodes` of object `i` after `_init_node_similars_references`:
the resolved own `similars`, plus (only for the index-resolved object of
its label) every object that lists `i`'s label among its `similars`.  The
source interleaves these insertions while looping over `all_nodes`; set
membership does not depend on that order. -/
def simObjs (g : ArgumentGraph) (i : Nat) : List Nat :=
  setAddAll g []
    (((nodeAt g i).similars.filterMap (repIdx g)) ++
      (if repIdx g (labelAt g i) = some i then
        (List.range (numNodes g)).filter (fun j => decide (labelAt g i ∈ (nodeAt g j).similars))
      else []))

/-- `ArgumentGraph._check_constraints`: the five assertion families, with
Python's `node in set` membership (label membership). -/
def checkConstraints (g : ArgumentGraph) : Prop :=
  ∀ i ∈ List.range (numNodes g),
    (∀ p ∈ parentObjs g i, labelAt g i ∈ labelsOf g (childObjs g p)) ∧
    (∀ c ∈ childObjs g i, labelAt g i ∈ labelsOf g (parentObjs g c)) ∧
    (∀ gr ∈ groupObjs g i, labelAt g i ∈ labelsOf g (groupMemberObjs g gr)) ∧
    (∀ m ∈ groupMemberObjs g i, labelAt g i ∈ labelsOf g (groupObjs g m)) ∧
    (∀ s ∈ simObjs g i, labelAt g i ∈ labelsOf g (simObjs g s))

instance (g : ArgumentGraph) : Decidable (checkConstraints g) := by
  unfold checkConstraints
  infer_instance

/-- Start index of the FAQ partition inside `all_nodes`. -/
def faqStart (g : ArgumentGraph) : Nat :=
  (frontNodes g).length

/-- Global indices of the FAQ partition's objects. -/
def faqIdx (g : ArgumentGraph) : List Nat :=
  (List.range g.faq_nodes.length).map (fun k => faqStart g + k)

/-- `ArgumentGraph.faq_answer_nodes`: FAQ nodes with non-empty raw
`parents` (`has_parent_labels`). -/
def faqAnswerIdx (g : ArgumentGraph) : List Nat :=
  (faqIdx g).filter (fun i => !(nodeAt g i).parents.isEmpty)

/-- `ArgumentGraph.faq_node_pairs`: each answer with non-empty resolved
`parent_nodes` is paired with one of its parents (`next(iter(...))`,
modelled as the first resolved parent); answers with empty `parent_nodes`
are skipped with a warning. -/
def faq_node_pairs (g : ArgumentGraph) : List (Nat × Nat) :=
  (faqAnswerIdx g).filterMap (fun i =>
    match parentObjs g i with
    | [] => none
    | q :: _ => some (q, i))

/-- `ArgumentGraph.get_counter_args`: resolve the label, return the node's
`child_nodes` when non-empty, `None` otherwise (also `None` when the label
does not resolve). -/
def get_counter_args (g : ArgumentGraph) (label : String) : Option (List Nat) :=
  match repIdx g label with
  | none => none
  | some i => if 0 < (childObjs g i).length then some (childObjs g i) else none

/-- One level of the loop body of `GraphNode.ancestor_nodes`: iterate the
parent objects, skipping objects whose label is already accumulated,
otherwise adding the parent and the recursively computed ancestors (`anc`
is the recursive call at one less depth). -/
def ancLoop (g : ArgumentGraph) (anc : Nat → Option (List Nat)) :
    List Nat → List Nat → Option (List Nat)
  | [], acc => some acc
  | p :: ps, acc =>
    if acc.any (fun k => labelAt g k == labelAt g p) then ancLoop g anc ps acc
    else
      match anc p with
      | none => none
      | some r => ancLoop g anc ps (setAddAll g (insertByLabel g acc p) r)

/-- `GraphNode.ancestor_nodes` with explicit recursion-depth fuel.  Each
recursive property call starts a *fresh* accumulator (exactly as the
source does); `none` means the computation did not finish within the given
depth.  If the result is `none` for every fuel, the Python recursion
exceeds every finite stack depth, i.e. it never returns. -/
def ancNodes (g : ArgumentGraph) : Nat → Nat → Option (List Nat)
  | 0, _ => none
  | fuel + 1, i => ancLoop g (ancNodes g fuel) (parentObjs g i) []

/-! ### Concrete instances used to settle the claims -/

/-- Graph with two distinct node objects sharing label `"L"` (the second
lists `"Q"` as parent) plus the node `"Q"`; duplicates are allowed by the
source. -/
def gDup : ArgumentGraph :=
  { introduction_nodes := []
    transition_nodes := []
    z_arguments_nodes :=
      [ { label := "L", full_text := "first object" },
        { label := "L", full_text := "second object", parents := ["Q"] },
        { label := "Q", full_text := "the parent" } ]
    group_nodes := []
    nz_arguments_nodes := []
    faq_nodes := [] }

/-- Small graph with distinct labels: `"A"` has parent, group and similar
reference to `"B"`. -/
def gPair : ArgumentGraph :=
  { introduction_nodes := []
    transition_nodes := []
    z_arguments_nodes :=
      [ { label := "A", full_text := "a", parents := ["B"], groups := ["B"],
          similars := ["B"] },
        { label := "B", full_text := "b" } ]
    group_nodes := []
    nz_arguments_nodes := []
    faq_nodes := [] }

/-- Two-node parent cycle `A → B → A`. -/
def gCycle : ArgumentGraph :=
  { introduction_nodes := []
    transition_nodes := []
    z_arguments_nodes :=
      [ { label := "A", full_text := "a", parents := ["B"] },
        { label := "B", full_text := "b", parents := ["A"] } ]
    group_nodes := []
    nz_arguments_nodes := []
    faq_nodes := [] }

/-- Single childless node `"A"`. -/
def gSingle : ArgumentGraph :=
  { introduction_nodes := []
    transition_nodes := []
    z_arguments_nodes := [ { label := "A", full_text := "a" } ]
    group_nodes := []
    nz_arguments_nodes := []
    faq_nodes := [] }

/-- Built graph of one node declaring its own label in `similars`. -/
def gSelfSim : ArgumentGraph :=
  mkArgumentGraph [] [] [ { label := "A", full_text := "a", similars := ["A"] } ] [] [] []

/-- FAQ question/answer pair. -/
def gFaq : ArgumentGraph :=
  { introduction_nodes := []
    transition_nodes := []
    z_arguments_nodes := []
    group_nodes := []
    nz_arguments_nodes := []
    faq_nodes :=
      [ { label := "FAQ.Q1", full_text := "the question" },
        { label := "FAQ.A1", full_text := "the answer", parents := ["FAQ.Q1"] } ] }

/-- `"B"` counters `"A"`; `"B"` itself has no children. -/
def gChild : ArgumentGraph :=
  { introduction_nodes := []
    transition_nodes := []
    z_arguments_nodes :=
      [ { label := "A", full_text := "a" },
        { label := "B", full_text := "b", parents := ["A"] } ]
    group_nodes := []
    nz_arguments_nodes := []
    faq_nodes := [] }

/-- One node whose only parent label resolves to nothing. -/
def gDangling : ArgumentGraph :=
  { introduction_nodes := []
    transition_nodes := []
    z_arguments_nodes :=
      [ { label := "A", full_text := "a", parents := ["NO.SUCH.LABEL"] } ]
    group_nodes := []
    nz_arguments_nodes := []
    faq_nodes := [] }

/-- Two distinct node objects with the same label `"L"`. -/
def gDupSimple : ArgumentGraph :=
  { introduction_nodes := []
    transition_nodes := []
    z_arguments_nodes :=
      [ { label := "L", full_text := "one" },
        { label := "L", full_text := "two" } ]
    group_nodes := []
    nz_arguments_nodes := []
    faq_nodes := [] }

/-- A concrete stand-in for Python's string hash (length), used to witness
the hash-equality theorem. -/
def strHashLen : String → Int :=
  fun s => (s.length : Int)

/-- Node with a single-letter label. -/
def nodeA : GraphNode :=
  { label := "A", full_text := "a" }

/-- Node with a two-letter label (different `strHashLen` value). -/
def nodeBB : GraphNode :=
  { label := "BB", full_text := "bb" }

/-- Node with no group labels. -/
def nodeNoGroups : GraphNode :=
  { label := "N", full_text := "n" }

/-- Node with one group label. -/
def nodeOneGroup : GraphNode :=
  { label := "M", full_text := "m", summary := "s", paraphrase := "p",
    rating := 3, groups := ["G"] }

/-! ### Basic lemmas about indexing and the label index -/

lemma nodeAt_eq_get (g : ArgumentGraph) {i : Nat} (h : i < numNodes g) :
    nodeAt g i = g.all_nodes.get ⟨i, h⟩ := by
  unfold nodeAt
  rw [List.getD_eq_get?, List.get?_eq_get h, Option.getD_some]

lemma nodeAt_mem (g : ArgumentGraph) {i : Nat} (h : i < numNodes g) :
    nodeAt g i ∈ g.all_nodes := by
  rw [nodeAt_eq_get g h]
  exact List.get_mem _ _ _

lemma lastLabelIdx_spec (g : ArgumentGraph) (l : String) :
    ∀ k i, lastLabelIdx g l k = some i → i < k ∧ labelAt g i = l := by
  intro k
  induction k with
  | zero => intro i h; simp [lastLabelIdx] at h
  | succ k ih =>
    intro i h
    rw [lastLabelIdx] at h
    by_cases hk : labelAt g k = l
    · rw [if_pos hk] at h
      injection h with h
      subst h
      exact ⟨Nat.lt_succ_self k, hk⟩
    · rw [if_neg hk] at h
      obtain ⟨h1, h2⟩ := ih i h
      exact ⟨Nat.lt_succ_of_lt h1, h2⟩

lemma lastLabelIdx_last (g : ArgumentGraph) (l : String) :
    ∀ k i, i < k → labelAt g i = l →
      (∀ j, i < j → j < k → labelAt g j ≠ l) → lastLabelIdx g l k = some i := by
  intro k
  induction k with
  | zero => intro i h; omega
  | succ k ih =>
    intro i hik hil hlast
    rw [lastLabelIdx]
    by_cases hk : labelAt g k = l
    · have hike : i = k := by
        by_contra hne
        exact hlast k (by omega) (Nat.lt_succ_self k) hk
      rw [if_pos hk, hike]
    · rw [if_neg hk]
      have hik' : i < k := by
        rcases Nat.lt_succ_iff_lt_or_eq.mp hik with h | h
        · exact h
        · exact absurd (h ▸ hil) hk
      exact ih i hik' hil (fun j hj1 hj2 => hlast j hj1 (Nat.lt_succ_of_lt hj2))

lemma repIdx_some (g : ArgumentGraph) (l : String) (i : Nat)
    (h : repIdx g l = some i) : i < numNodes g ∧ labelAt g i = l :=
  lastLabelIdx_spec g l (numNodes g) i h

lemma repIdx_isRep (g : ArgumentGraph) {l : String} {i : Nat}
    (h : repIdx g l = some i) : repIdx g (labelAt g i) = some i := by
  rw [(repIdx_some g l i h).2]
  exact h

lemma repIdx_isSome_of_lt (g : ArgumentGraph) {i : Nat} (h : i < numNodes g) :
    (repIdx g (labelAt g i)).isSome := by
  cases hr : repIdx g (labelAt g i) with
  | some j => rfl
  | none =>
    exfalso
    have haux : ∀ k, k ≤ numNodes g → i < k → lastLabelIdx g (labelAt g i) k ≠ none := by
      intro k
      induction k with
      | zero => omega
      | succ k ih =>
        intro hk hik
        rw [lastLabelIdx]
        by_cases hlk : labelAt g k = labelAt g i
        · rw [if_pos hlk]; exact Option.some_ne_none k
        · rw [if_neg hlk]
          have hik' : i < k := by
            rcases Nat.lt_succ_iff_lt_or_eq.mp hik with h' | h'
            · exact h'
            · exact absurd (h' ▸ rfl) hlk
          exact ih (by omega) hik'
    exact haux (numNodes g) le_rfl h hr

lemma repIdx_eq_none (g : ArgumentGraph) (l : String)
    (h : ∀ m ∈ g.all_nodes, m.label ≠ l) : repIdx g l = none := by
  have haux : ∀ k, k ≤ numNodes g → lastLabelIdx g l k = none := by
    intro k
    induction k with
    | zero => intro _; rfl
    | succ k ih =>
      intro hk
      rw [lastLabelIdx]
      have hlk : labelAt g k ≠ l := h (nodeAt g k) (nodeAt_mem g (by omega))
      rw [if_neg hlk]
      exact ih (by omega)
  exact haux (numNodes g) le_rfl

lemma labelAt_inj (g : ArgumentGraph)
    (hnd : (g.all_nodes.map GraphNode.label).Nodup)
    {i j : Nat} (hi : i < numNodes g) (hj : j < numNodes g)
    (hij : labelAt g i = labelAt g j) : i = j := by
  have hi' : i < (g.all_nodes.map GraphNode.label).length := by
    simpa [numNodes] using hi
  have hj' : j < (g.all_nodes.map GraphNode.label).length := by
    simpa [numNodes] using hj
  have e1 : (g.all_nodes.map GraphNode.label).get ⟨i, hi'⟩ = labelAt g i := by
    rw [List.get_map, labelAt, nodeAt_eq_get g hi]
  have e2 : (g.all_nodes.map GraphNode.label).get ⟨j, hj'⟩ = labelAt g j := by
    rw [List.get_map, labelAt, nodeAt_eq_get g hj]
  have hget : (g.all_nodes.map GraphNode.label).get ⟨i, hi'⟩ =
      (g.all_nodes.map GraphNode.label).get ⟨j, hj'⟩ := by
    rw [e1, e2, hij]
  have := List.nodup_iff_injective_get.mp hnd hget
  exact Fin.mk.inj_iff.mp this

lemma repIdx_of_nodup (g : ArgumentGraph)
    (hnd : (g.all_nodes.map GraphNode.label).Nodup)
    {j : Nat} (hj : j < numNodes g) : repIdx g (labelAt g j) = some j :=
  lastLabelIdx_last g (labelAt g j) (numNodes g) j hj rfl
    (fun k hk1 hk2 hlk => by
      have := labelAt_inj g hnd hk2 hj hlk
      omega)

/-! ### Lemmas about the set-of-nodes model (`insertByLabel` / `setAddAll`) -/

lemma label_mem_insertByLabel (g : ArgumentGraph) (acc : List Nat) (j : Nat) (l : String) :
    l ∈ labelsOf g (insertByLabel g acc j) ↔ l ∈ labelsOf g acc ∨ l = labelAt g j := by
  unfold insertByLabel
  by_cases h : labelAt g j ∈ labelsOf g acc
  · rcases List.mem_map.mp h with ⟨k, hk, hkl⟩
    have hany : (acc.any fun k => labelAt g k == labelAt g j) = true :=
      List.any_eq_true.mpr ⟨k, hk, beq_iff_eq.mpr hkl⟩
    rw [if_pos hany]
    constructor
    · exact Or.inl
    · rintro (hl | rfl)
      · exact hl
      · exact h
  · have hany : ¬((acc.any fun k => labelAt g k == labelAt g j) = true) := by
      intro hc
      rcases List.any_eq_true.mp hc with ⟨k, hk, hkb⟩
      exact h (List.mem_map.mpr ⟨k, hk, beq_iff_eq.mp hkb⟩)
    rw [if_neg hany]
    unfold labelsOf
    rw [List.map_append, List.mem_append]
    simp

lemma mem_insertByLabel (g : ArgumentGraph) {acc : List Nat} {j x : Nat}
    (h : x ∈ insertByLabel g acc j) : x ∈ acc ∨ x = j := by
  unfold insertByLabel at h
  by_cases hc : (acc.any fun k => labelAt g k == labelAt g j) = true
  · rw [if_pos hc] at h; exact Or.inl h
  · rw [if_neg hc] at h
    rcases List.mem_append.mp h with h | h
    · exact Or.inl h
    · exact Or.inr (List.mem_singleton.mp h)

lemma label_mem_setAddAll (g : ArgumentGraph) (js : List Nat) :
    ∀ (acc : List Nat) (l : String),
      (l ∈ labelsOf g (setAddAll g acc js) ↔ l ∈ labelsOf g acc ∨ l ∈ labelsOf g js) := by
  induction js with
  | nil => intro acc l; simp [setAddAll, labelsOf]
  | cons j js ih =>
    intro acc l
    have hstep : setAddAll g acc (j :: js) = setAddAll g (insertByLabel g acc j) js := rfl
    rw [hstep, ih (insertByLabel g acc j) l, label_mem_insertByLabel]
    unfold labelsOf
    rw [List.map_cons, List.mem_cons]
    tauto

lemma mem_setAddAll (g : ArgumentGraph) (js : List Nat) :
    ∀ (acc : List Nat) (x : Nat), x ∈ setAddAll g acc js → x ∈ acc ∨ x ∈ js := by
  induction js with
  | nil => intro acc x h; exact Or.inl h
  | cons j js ih =>
    intro acc x h
    have hstep : setAddAll g acc (j :: js) = setAddAll g (insertByLabel g acc j) js := rfl
    rw [hstep] at h
    rcases ih (insertByLabel g acc j) x h with h | h
    · rcases mem_insertByLabel g h with h | h
      · exact Or.inl h
      · exact Or.inr (h ▸ List.mem_cons_self j js)
    · exact Or.inr (List.mem_cons_of_mem j h)

/-! ### Membership in the five derived link sets -/

lemma mem_resolve (g : ArgumentGraph) (xs : List String) (r : Nat) :
    r ∈ (xs.filterMap (repIdx g)).dedup ↔ ∃ x ∈ xs, repIdx g x = some r := by
  rw [List.mem_dedup, List.mem_filterMap]

lemma label_mem_resolve (g : ArgumentGraph) (xs : List String) (l : String) :
    l ∈ labelsOf g ((xs.filterMap (repIdx g)).dedup) ↔
      l ∈ xs ∧ (repIdx g l).isSome := by
  unfold labelsOf
  constructor
  · intro hl
    rcases List.mem_map.mp hl with ⟨r, hr, hrl⟩
    rcases (mem_resolve g xs r).mp hr with ⟨x, hx, hxr⟩
    have hspec := repIdx_some g x r hxr
    have hlx : l = x := by rw [← hrl, hspec.2]
    subst hlx
    exact ⟨hx, by rw [hxr]; rfl⟩
  · rintro ⟨hx, hs⟩
    rcases Option.isSome_iff_exists.mp hs with ⟨r, hr⟩
    exact List.mem_map.mpr
      ⟨r, (mem_resolve g xs r).mpr ⟨l, hx, hr⟩, (repIdx_some g l r hr).2⟩

lemma mem_parentObjs (g : ArgumentGraph) (i r : Nat) :
    r ∈ parentObjs g i ↔ ∃ x ∈ (nodeAt g i).parents, repIdx g x = some r :=
  mem_resolve g (nodeAt g i).parents r

lemma label_mem_parentObjs (g : ArgumentGraph) (i : Nat) (l : String) :
    l ∈ labelsOf g (parentObjs g i) ↔
      l ∈ (nodeAt g i).parents ∧ (repIdx g l).isSome :=
  label_mem_resolve g (nodeAt g i).parents l

lemma mem_groupObjs (g : ArgumentGraph) (i r : Nat) :
    r ∈ groupObjs g i ↔ ∃ x ∈ (nodeAt g i).groups, repIdx g x = some r :=
  mem_resolve g (nodeAt g i).groups r

lemma label_mem_groupObjs (g : ArgumentGraph) (i : Nat) (l : String) :
    l ∈ labelsOf g (groupObjs g i) ↔
      l ∈ (nodeAt g i).groups ∧ (repIdx g l).isSome :=
  label_mem_resolve g (nodeAt g i).groups l

lemma mem_childObjs (g : ArgumentGraph) {i c : Nat} (h : c ∈ childObjs g i) :
    repIdx g (labelAt g i) = some i ∧ c < numNodes g ∧
      labelAt g i ∈ (nodeAt g c).parents := by
  unfold childObjs at h
  by_cases hrep : repIdx g (labelAt g i) = some i
  · rw [if_pos hrep] at h
    rcases mem_setAddAll g _ _ _ h with h | h
    · simp at h
    · rcases List.mem_filter.mp h with ⟨hr, hp⟩
      exact ⟨hrep, List.mem_range.mp hr, of_decide_eq_true hp⟩
  · rw [if_neg hrep] at h
    simp at h

lemma label_mem_childObjs (g : ArgumentGraph) (i : Nat) (l : String) :
    l ∈ labelsOf g (childObjs g i) ↔
      repIdx g (labelAt g i) = some i ∧
        ∃ c, c < numNodes g ∧ labelAt g c = l ∧ labelAt g i ∈ (nodeAt g c).parents := by
  unfold childObjs
  by_cases hrep : repIdx g (labelAt g i) = some i
  · rw [if_pos hrep, label_mem_setAddAll]
    unfold labelsOf
    constructor
    · rintro (h | h)
      · simp at h
      · rcases List.mem_map.mp h with ⟨c, hc, hcl⟩
        rcases List.mem_filter.mp hc with ⟨hr, hp⟩
        exact ⟨hrep, c, List.mem_range.mp hr, hcl, of_decide_eq_true hp⟩
    · rintro ⟨-, c, hc, hcl, hp⟩
      exact Or.inr (List.mem_map.mpr
        ⟨c, List.mem_filter.mpr ⟨List.mem_range.mpr hc, decide_eq_true hp⟩, hcl⟩)
  · rw [if_neg hrep]
    simp [labelsOf]
    intro h
    exact absurd h hrep

lemma mem_groupMemberObjs (g : ArgumentGraph) {i c : Nat} (h : c ∈ groupMemberObjs g i) :
    repIdx g (labelAt g i) = some i ∧ c < numNodes g ∧
      labelAt g i ∈ (nodeAt g c).groups := by
  unfold groupMemberObjs at h
  by_cases hrep : repIdx g (labelAt g i) = some i
  · rw [if_pos hrep] at h
    rcases mem_setAddAll g _ _ _ h with h | h
    · simp at h
    · rcases List.mem_filter.mp h with ⟨hr, hp⟩
      exact ⟨hrep, List.mem_range.mp hr, of_decide_eq_true hp⟩
  · rw [if_neg hrep] at h
    simp at h

lemma label_mem_groupMemberObjs (g : ArgumentGraph) (i : Nat) (l : String) :
    l ∈ labelsOf g (groupMemberObjs g i) ↔
      repIdx g (labelAt g i) = some i ∧
        ∃ c, c < numNodes g ∧ labelAt g c = l ∧ labelAt g i ∈ (nodeAt g c).groups := by
  unfold groupMemberObjs
  by_cases hrep : repIdx g (labelAt g i) = some i
  · rw [if_pos hrep, label_mem_setAddAll]
    unfold labelsOf
    constructor
    · rintro (h | h)
      · simp at h
      · rcases List.mem_map.mp h with ⟨c, hc, hcl⟩
        rcases List.mem_filter.mp hc with ⟨hr, hp⟩
        exact ⟨hrep, c, List.mem_range.mp hr, hcl, of_decide_eq_true hp⟩
    · rintro ⟨-, c, hc, hcl, hp⟩
      exact Or.inr (List.mem_map.mpr
        ⟨c, List.mem_filter.mpr ⟨List.mem_range.mpr hc, decide_eq_true hp⟩, hcl⟩)
  · rw [if_neg hrep]
    simp [labelsOf]
    intro h
    exact absurd h hrep

lemma mem_simObjs (g : ArgumentGraph) {i s : Nat} (h : s ∈ simObjs g i) :
    (∃ t ∈ (nodeAt g i).similars, repIdx g t = some s) ∨
      (repIdx g (labelAt g i) = some i ∧ s < numNodes g ∧
        labelAt g i ∈ (nodeAt g s).similars) := by
  unfold simObjs at h
  rcases mem_setAddAll g _ _ _ h with h | h
  · simp at h
  · rcases List.mem_append.mp h with h | h
    · exact Or.inl (List.mem_filterMap.mp h)
    · by_cases hrep : repIdx g (labelAt g i) = some i
      · rw [if_pos hrep] at h
        rcases List.mem_filter.mp h with ⟨hr, hp⟩
        exact Or.inr ⟨hrep, List.mem_range.mp hr, of_decide_eq_true hp⟩
      · rw [if_neg hrep] at h
        simp at h

lemma label_mem_simObjs (g : ArgumentGraph) (i : Nat) (l : String) :
    l ∈ labelsOf g (simObjs g i) ↔
      (l ∈ (nodeAt g i).similars ∧ (repIdx g l).isSome) ∨
        (repIdx g (labelAt g i) = some i ∧
          ∃ c, c < numNodes g ∧ labelAt g c = l ∧ labelAt g i ∈ (nodeAt g c).similars) := by
  unfold simObjs
  rw [label_mem_setAddAll]
  unfold labelsOf
  rw [List.map_append, List.mem_append]
  constructor
  · rintro (h | h | h)
    · simp at h
    · left
      rcases List.mem_map.mp h with ⟨r, hr, hrl⟩
      rcases List.mem_filterMap.mp hr with ⟨x, hx, hxr⟩
      have hspec := repIdx_some g x r hxr
      have hlx : l = x := by rw [← hrl, hspec.2]
      subst hlx
      exact ⟨hx, by rw [hxr]; rfl⟩
    · by_cases hrep : repIdx g (labelAt g i) = some i
      · rw [if_pos hrep] at h
        rcases List.mem_map.mp h with ⟨c, hc, hcl⟩
        rcases List.mem_filter.mp hc with ⟨hr, hp⟩
        exact Or.inr ⟨hrep, c, List.mem_range.mp hr, hcl, of_decide_eq_true hp⟩
      · rw [if_neg hrep] at h
        simp at h
  · rintro (⟨hx, hs⟩ | ⟨hrep, c, hc, hcl, hp⟩)
    · right; left
      rcases Option.isSome_iff_exists.mp hs with ⟨r, hr⟩
      exact List.mem_map.mpr
        ⟨r, List.mem_filterMap.mpr ⟨l, hx, hr⟩, (repIdx_some g l r hr).2⟩
    · right; right
      rw [if_pos hrep]
      exact List.mem_map.mpr
        ⟨c, List.mem_filter.mpr ⟨List.mem_range.mpr hc, decide_eq_true hp⟩, hcl⟩

/-! ### The `_check_constraints` assertions always pass -/

lemma checkConstraints_holds (g : ArgumentGraph) : checkConstraints g := by
  intro i hi
  rw [List.mem_range] at hi
  refine ⟨?_, ?_, ?_, ?_, ?_⟩
  · intro p hp
    rcases (mem_parentObjs g i p).mp hp with ⟨x, hx, hxr⟩
    have hrep := repIdx_isRep g hxr
    have hlab := (repIdx_some g x p hxr).2
    rw [label_mem_childObjs]
    exact ⟨hrep, i, hi, rfl, by rw [hlab]; exact hx⟩
  · intro c hc
    obtain ⟨hrep, hcn, hcp⟩ := mem_childObjs g hc
    rw [label_mem_parentObjs]
    exact ⟨hcp, by rw [hrep]; rfl⟩
  · intro gr hgr
    rcases (mem_groupObjs g i gr).mp hgr with ⟨x, hx, hxr⟩
    have hrep := repIdx_isRep g hxr
    have hlab := (repIdx_some g x gr hxr).2
    rw [label_mem_groupMemberObjs]
    exact ⟨hrep, i, hi, rfl, by rw [hlab]; exact hx⟩
  · intro m hm
    obtain ⟨hrep, hmn, hmg⟩ := mem_groupMemberObjs g hm
    rw [label_mem_groupObjs]
    exact ⟨hmg, by rw [hrep]; rfl⟩
  · intro s hs
    rcases mem_simObjs g hs with ⟨t, ht, htr⟩ | ⟨hrep, hsn, hss⟩
    · have hreps := repIdx_isRep g htr
      have hlab := (repIdx_some g t s htr).2
      rw [label_mem_simObjs]
      exact Or.inr ⟨hreps, i, hi, rfl, by rw [hlab]; exact ht⟩
    · rw [label_mem_simObjs]
      exact Or.inl ⟨hss, by rw [hrep]; rfl⟩

/-! ### Node construction (`__post_init__`) facts -/

lemma postInit_label_not_mem_parents (n : GraphNode) :
    (postInit n).label ∉ (postInit n).parents := by
  have hp : (postInit n).parents =
      (cleanupAttributes n).parents.filter (fun s => s ≠ (cleanupAttributes n).label) := rfl
  have hl : (postInit n).label = (cleanupAttributes n).label := rfl
  intro h
  rw [hp, hl] at h
  have hd := (List.mem_filter.mp h).2
  simp at hd

lemma postInit_label_not_mem_groups (n : GraphNode) :
    (postInit n).label ∉ (postInit n).groups := by
  have hp : (postInit n).groups =
      (cleanupAttributes n).groups.filter (fun s => s ≠ (cleanupAttributes n).label) := rfl
  have hl : (postInit n).label = (cleanupAttributes n).label := rfl
  intro h
  rw [hp, hl] at h
  have hd := (List.mem_filter.mp h).2
  simp at hd

lemma mem_mkArgumentGraph {intro trans z grp nz faq : List GraphNode} {n : GraphNode}
    (h : n ∈ (mkArgumentGraph intro trans z grp nz faq).all_nodes) :
    ∃ m, n = postInit m := by
  unfold mkArgumentGraph ArgumentGraph.all_nodes frontNodes at h
  simp only [List.mem_append] at h
  rcases h with ((h | h | h | h | h) | h) <;>
    exact (fun ⟨m, _, hm⟩ => ⟨m, hm.symm⟩) (List.mem_map.mp h)

/-! ### FAQ partition indexing -/

lemma numNodes_eq_faqStart_add (g : ArgumentGraph) :
    numNodes g = faqStart g + g.faq_nodes.length := by
  unfold numNodes ArgumentGraph.all_nodes faqStart
  rw [List.length_append]

lemma nodeAt_faq (g : ArgumentGraph) (k : Nat) :
    nodeAt g (faqStart g + k) = g.faq_nodes.getD k default := by
  unfold nodeAt ArgumentGraph.all_nodes faqStart
  rw [List.getD_append_right _ _ _ _ (Nat.le_add_right _ _), Nat.add_sub_cancel_left]

/-! ### Claims -/

/-- C1, counterexample: on the built graph `gDup` (construction passes the
constraint check) the node object `0` (label `"L"`, no parents) is a
member of the `child_nodes` of node `2` (label `"Q"`) — because Python set
membership compares by label and the second `"L"` object declared `"Q"` as
parent — while node `2` is not in object `0`'s `parent_nodes`.  The
claimed equivalence fails. -/
theorem C1_counterexample :
    checkConstraints gDup ∧
    ¬(labelAt gDup 2 ∈ labelsOf gDup (parentObjs gDup 0) ↔
        labelAt gDup 0 ∈ labelsOf gDup (childObjs gDup 2)) := by
  constructor
  · decide
  · decide

/-- C1, amended: on every built `ArgumentGraph` whose nodes carry pairwise
distinct labels, for all node objects `i`, `j`: `j ∈ i.parent_nodes` iff
`i ∈ j.child_nodes`, `j ∈ i.group_nodes` iff `i ∈ j.group_member_nodes`,
and `j ∈ i.similar_nodes` iff `i ∈ j.similar_nodes` (membership is
Python's `__eq__`-membership, i.e. label membership). -/
theorem C1_link_symmetry (g : ArgumentGraph)
    (hnd : (g.all_nodes.map GraphNode.label).Nodup)
    (i j : Nat) (hi : i < numNodes g) (hj : j < numNodes g) :
    (labelAt g j ∈ labelsOf g (parentObjs g i) ↔
      labelAt g i ∈ labelsOf g (childObjs g j)) ∧
    (labelAt g j ∈ labelsOf g (groupObjs g i) ↔
      labelAt g i ∈ labelsOf g (groupMemberObjs g j)) ∧
    (labelAt g j ∈ labelsOf g (simObjs g i) ↔
      labelAt g i ∈ labelsOf g (simObjs g j)) := by
  have hrepi : repIdx g (labelAt g i) = some i := repIdx_of_nodup g hnd hi
  have hrepj : repIdx g (labelAt g j) = some j := repIdx_of_nodup g hnd hj
  refine ⟨?_, ?_, ?_⟩
  · rw [label_mem_parentObjs, label_mem_childObjs]
    constructor
    · rintro ⟨hmem, -⟩
      exact ⟨hrepj, i, hi, rfl, hmem⟩
    · rintro ⟨-, c, hc, hcl, hcp⟩
      have hci : c = i := labelAt_inj g hnd hc hi hcl
      subst hci
      exact ⟨hcp, by rw [hrepj]; rfl⟩
  · rw [label_mem_groupObjs, label_mem_groupMemberObjs]
    constructor
    · rintro ⟨hmem, -⟩
      exact ⟨hrepj, i, hi, rfl, hmem⟩
    · rintro ⟨-, c, hc, hcl, hcp⟩
      have hci : c = i := labelAt_inj g hnd hc hi hcl
      subst hci
      exact ⟨hcp, by rw [hrepj]; rfl⟩
  · rw [label_mem_simObjs, label_mem_simObjs]
    constructor
    · rintro (⟨hmem, -⟩ | ⟨-, c, hc, hcl, hcs⟩)
      · exact Or.inr ⟨hrepj, i, hi, rfl, hmem⟩
      · have hcj : c = j := labelAt_inj g hnd hc hj hcl
        subst hcj
        exact Or.inl ⟨hcs, by rw [hrepi]; rfl⟩
    · rintro (⟨hmem, -⟩ | ⟨-, c, hc, hcl, hcs⟩)
      · exact Or.inr ⟨hrepi, j, hj, rfl, hmem⟩
      · have hci : c = i := labelAt_inj g hnd hc hi hcl
        subst hci
        exact Or.inl ⟨hcs, by rw [hrepj]; rfl⟩

/-- C1, witness: the amended symmetry theorem applied to the concrete
distinct-label graph `gPair` at objects `0` and `1`. -/
theorem C1_link_symmetry_witness :
    (labelAt gPair 1 ∈ labelsOf gPair (parentObjs gPair 0) ↔
      labelAt gPair 0 ∈ labelsOf gPair (childObjs gPair 1)) ∧
    (labelAt gPair 1 ∈ labelsOf gPair (groupObjs gPair 0) ↔
      labelAt gPair 0 ∈ labelsOf gPair (groupMemberObjs gPair 1)) ∧
    (labelAt gPair 1 ∈ labelsOf gPair (simObjs gPair 0) ↔
      labelAt gPair 0 ∈ labelsOf gPair (simObjs gPair 1)) :=
  C1_link_symmetry gPair (by decide) 0 1 (by decide) (by decide)

/-- C2: on the two-node parent cycle `gCycle` (which builds successfully),
`ancestor_nodes` of either node returns no result at *any* recursion
depth: the recursion `A.ancestor_nodes → B.ancestor_nodes →
A.ancestor_nodes → …` restarts with a fresh accumulator at every call, so
the local `visited` check never fires across calls and the Python property
exceeds every finite stack depth instead of terminating with `{A, B}`. -/
theorem C2_ancestor_cycle_diverges :
    checkConstraints gCycle ∧
    ∀ fuel : Nat, ancNodes gCycle fuel 0 = none ∧ ancNodes gCycle fuel 1 = none := by
  refine ⟨checkConstraints_holds gCycle, ?_⟩
  intro fuel
  induction fuel with
  | zero => exact ⟨rfl, rfl⟩
  | succ f ih =>
    have hp0 : parentObjs gCycle 0 = [1] := by decide
    have hp1 : parentObjs gCycle 1 = [0] := by decide
    constructor
    · show ancLoop gCycle (ancNodes gCycle f) (parentObjs gCycle 0) [] = none
      rw [hp0]
      simp only [ancLoop, List.any_nil, Bool.false_eq_true, if_false, ih.2]
    · show ancLoop gCycle (ancNodes gCycle f) (parentObjs gCycle 1) [] = none
      rw [hp1]
      simp only [ancLoop, List.any_nil, Bool.false_eq_true, if_false, ih.1]

/-- C3, counterexample: on `gSingle`, the label `"NOPE"` resolves to no
node while `"A"` resolves to the childless node `0`, yet
`get_counter_args` returns the same value (`none`) for both — the two
cases are not distinguishable from the result. -/
theorem C3_counterexample :
    (∀ m ∈ gSingle.all_nodes, m.label ≠ "NOPE") ∧
    repIdx gSingle "A" = some 0 ∧
    childObjs gSingle 0 = [] ∧
    get_counter_args gSingle "NOPE" = get_counter_args gSingle "A" := by
  refine ⟨by decide, by decide, by decide, by decide⟩

/-- C3, amended: `get_counter_args` returns `None` both for a label that
resolves to no node and for a label resolving to a node with empty
`child_nodes`; the caller receives the identical value in the two cases
and cannot distinguish them. -/
theorem C3_unknown_and_childless_both_none (g : ArgumentGraph) (l₁ l₂ : String)
    (h₁ : ∀ m ∈ g.all_nodes, m.label ≠ l₁)
    (i : Nat) (h₂ : repIdx g l₂ = some i) (h₃ : childObjs g i = []) :
    get_counter_args g l₁ = none ∧ get_counter_args g l₂ = none ∧
    get_counter_args g l₁ = get_counter_args g l₂ := by
  have e₁ : get_counter_args g l₁ = none := by
    unfold get_counter_args
    rw [repIdx_eq_none g l₁ h₁]
  have e₂ : get_counter_args g l₂ = none := by
    unfold get_counter_args
    rw [h₂]
    show (if 0 < (childObjs g i).length then some (childObjs g i) else none) = none
    rw [h₃]
    rfl
  exact ⟨e₁, e₂, e₁.trans e₂.symm⟩

/-- C3, witness: the amended theorem at `gSingle` with the unknown label
`"NOPE"` and the childless node label `"A"`. -/
theorem C3_unknown_and_childless_both_none_witness :
    get_counter_args gSingle "NOPE" = none ∧
    get_counter_args gSingle "A" = none ∧
    get_counter_args gSingle "NOPE" = get_counter_args gSingle "A" :=
  C3_unknown_and_childless_both_none gSingle "NOPE" "A" (by decide) 0 (by decide) (by decide)

/-- C4, counterexample: the node `"A"` of the built graph `gSelfSim`
declares its own label in `similars`; `_match_constraints` cleans only
`parents` and `groups`, so resolution adds the node to its own
`similar_nodes`, a self-loop the claim rules out. -/
theorem C4_counterexample :
    checkConstraints gSelfSim ∧
    labelAt gSelfSim 0 = "A" ∧
    (nodeAt gSelfSim 0).similars = ["A"] ∧
    "A" ∈ labelsOf gSelfSim (simObjs gSelfSim 0) := by
  refine ⟨by decide, by decide, by decide, by decide⟩

/-- C4, amended: on every built `ArgumentGraph` (all nodes passed through
`__post_init__`), no node is a member of its own `parent_nodes`,
`child_nodes`, `group_nodes` or `group_member_nodes`, even when its raw
`parents` or `groups` contained its own label; `similar_nodes` is
excluded, since a raw self-reference in `similars` is not cleaned and
produces a self-loop. -/
theorem C4_no_self_refs (g : ArgumentGraph)
    (hclean : ∀ n ∈ g.all_nodes, ∃ m, n = postInit m)
    (i : Nat) (hi : i < numNodes g) :
    labelAt g i ∉ labelsOf g (parentObjs g i) ∧
    labelAt g i ∉ labelsOf g (childObjs g i) ∧
    labelAt g i ∉ labelsOf g (groupObjs g i) ∧
    labelAt g i ∉ labelsOf g (groupMemberObjs g i) := by
  have hself : ∀ c, c < numNodes g →
      (nodeAt g c).label ∉ (nodeAt g c).parents ∧
      (nodeAt g c).label ∉ (nodeAt g c).groups := by
    intro c hc
    rcases hclean _ (nodeAt_mem g hc) with ⟨m, hm⟩
    rw [hm]
    exact ⟨postInit_label_not_mem_parents m, postInit_label_not_mem_groups m⟩
  refine ⟨?_, ?_, ?_, ?_⟩
  · intro h
    exact (hself i hi).1 ((label_mem_parentObjs g i _).mp h).1
  · intro h
    rcases (label_mem_childObjs g i _).mp h with ⟨-, c, hc, hcl, hcp⟩
    exact (hself c hc).1 (by rw [← hcl] at hcp; exact hcp)
  · intro h
    exact (hself i hi).2 ((label_mem_groupObjs g i _).mp h).1
  · intro h
    rcases (label_mem_groupMemberObjs g i _).mp h with ⟨-, c, hc, hcl, hcg⟩
    exact (hself c hc).2 (by rw [← hcl] at hcg; exact hcg)

/-- C4, witness: the amended theorem at the built graph `gSelfSim`
(whose single node even declares itself in `similars`). -/
theorem C4_no_self_refs_witness :
    labelAt gSelfSim 0 ∉ labelsOf gSelfSim (parentObjs gSelfSim 0) ∧
    labelAt gSelfSim 0 ∉ labelsOf gSelfSim (childObjs gSelfSim 0) ∧
    labelAt gSelfSim 0 ∉ labelsOf gSelfSim (groupObjs gSelfSim 0) ∧
    labelAt gSelfSim 0 ∉ labelsOf gSelfSim (groupMemberObjs gSelfSim 0) :=
  C4_no_self_refs gSelfSim (fun n hn => mem_mkArgumentGraph hn) 0 (by decide)

/-- C5: if the FAQ partition holds exactly a question `q` (no parent
labels) and an answer `r` with `parents = [q.label]`, then
`faq_node_pairs` is exactly the one pair (question object, answer object)
in that order; and, on every built graph, no FAQ node with empty raw
`parents` ever appears as the answer of a pair. -/
theorem C5_faq_pairs :
    (∀ (g : ArgumentGraph) (q r : GraphNode),
      g.faq_nodes = [q, r] → q.parents = [] → r.parents = [q.label] →
      q.label ≠ r.label →
      faq_node_pairs g = [(faqStart g, faqStart g + 1)] ∧
      nodeAt g (faqStart g) = q ∧ nodeAt g (faqStart g + 1) = r) ∧
    (∀ (g : ArgumentGraph) (pr : Nat × Nat), pr ∈ faq_node_pairs g →
      (nodeAt g pr.2).parents ≠ []) := by
  constructor
  · intro g q r hfaq hpq hpr hne
    have hlen : numNodes g = faqStart g + 2 := by
      rw [numNodes_eq_faqStart_add, hfaq]
      rfl
    have hq : nodeAt g (faqStart g) = q := by
      have h0 := nodeAt_faq g 0
      rw [hfaq] at h0
      simpa using h0
    have hr : nodeAt g (faqStart g + 1) = r := by
      have h1 := nodeAt_faq g 1
      rw [hfaq] at h1
      simpa using h1
    have hidx : faqIdx g = [faqStart g, faqStart g + 1] := by
      unfold faqIdx
      rw [hfaq]
      rfl
    have hans : faqAnswerIdx g = [faqStart g + 1] := by
      unfold faqAnswerIdx
      rw [hidx]
      have h1 : (!(nodeAt g (faqStart g)).parents.isEmpty) = false := by
        rw [hq, hpq]
        rfl
      have h2 : (!(nodeAt g (faqStart g + 1)).parents.isEmpty) = true := by
        rw [hr, hpr]
        rfl
      simp [List.filter_cons, h1, h2]
    have hrepq : repIdx g q.label = some (faqStart g) := by
      apply lastLabelIdx_last g q.label (numNodes g) (faqStart g) (by omega)
        (by rw [labelAt, hq])
      intro j hj1 hj2 hjl
      have hj : j = faqStart g + 1 := by omega
      subst hj
      rw [labelAt, hr] at hjl
      exact hne hjl.symm
    have hpar : parentObjs g (faqStart g + 1) = [faqStart g] := by
      unfold parentObjs
      rw [hr, hpr]
      show ([q.label].filterMap (repIdx g)).dedup = [faqStart g]
      rw [List.filterMap_cons, hrepq]
      show (faqStart g :: List.filterMap (repIdx g) []).dedup = [faqStart g]
      rw [List.filterMap_nil, List.dedup_cons_of_not_mem (List.not_mem_nil (faqStart g)),
        List.dedup_nil]
    have hpairs : faq_node_pairs g = [(faqStart g, faqStart g + 1)] := by
      unfold faq_node_pairs
      rw [hans, List.filterMap_cons, hpar]
      rfl
    exact ⟨hpairs, hq, hr⟩
  · intro g pr hpr
    rcases List.mem_filterMap.mp hpr with ⟨i, hi, hmi⟩
    have hi2 := (List.mem_filter.mp hi).2
    cases hp : (nodeAt g i).parents with
    | nil =>
      exfalso
      rw [hp] at hi2
      simp at hi2
    | cons a t =>
      cases hpo : parentObjs g i with
      | nil =>
        rw [hpo] at hmi
        simp at hmi
      | cons ph pt =>
        rw [hpo] at hmi
        have hpri : pr = (ph, i) := by
          have : some (ph, i) = some pr := hmi
          exact (Option.some.inj this).symm
        rw [hpri]
        show (nodeAt g i).parents ≠ []
        rw [hp]
        exact List.cons_ne_nil a t

/-- C5, witness: the pairing theorem applied to the concrete graph
`gFaq` holding exactly the question `"FAQ.Q1"` and answer `"FAQ.A1"`. -/
theorem C5_faq_pairs_witness :
    faq_node_pairs gFaq = [(faqStart gFaq, faqStart gFaq + 1)] ∧
    nodeAt gFaq (faqStart gFaq) = { label := "FAQ.Q1", full_text := "the question" } ∧
    nodeAt gFaq (faqStart gFaq + 1) =
      { label := "FAQ.A1", full_text := "the answer", parents := ["FAQ.Q1"] } :=
  C5_faq_pairs.1 gFaq
    { label := "FAQ.Q1", full_text := "the question" }
    { label := "FAQ.A1", full_text := "the answer", parents := ["FAQ.Q1"] }
    rfl rfl rfl (by decide)

/-- C6: `get_counter_args` returns `none` for a label carried by no node,
returns `none` for the label of a node whose `child_nodes` is empty, and
returns exactly the node's `child_nodes` when they are non-empty. -/
theorem C6_counter_args_cases (g : ArgumentGraph) (l : String) :
    ((∀ m ∈ g.all_nodes, m.label ≠ l) → get_counter_args g l = none) ∧
    (∀ i, repIdx g l = some i → childObjs g i = [] → get_counter_args g l = none) ∧
    (∀ i, repIdx g l = some i → childObjs g i ≠ [] →
      get_counter_args g l = some (childObjs g i)) := by
  refine ⟨?_, ?_, ?_⟩
  · intro h
    unfold get_counter_args
    rw [repIdx_eq_none g l h]
  · intro i hi hc
    unfold get_counter_args
    rw [hi]
    show (if 0 < (childObjs g i).length then some (childObjs g i) else none) = none
    rw [hc]
    rfl
  · intro i hi hc
    unfold get_counter_args
    rw [hi]
    show (if 0 < (childObjs g i).length then some (childObjs g i) else none) =
      some (childObjs g i)
    rw [if_pos (List.length_pos.mpr hc)]

/-- C6, witness: the three cases at `gChild` — unknown label `"NOPE"`,
childless node `"B"`, and node `"A"` countered by `"B"`. -/
theorem C6_counter_args_cases_witness :
    get_counter_args gChild "NOPE" = none ∧
    get_counter_args gChild "B" = none ∧
    get_counter_args gChild "A" = some (childObjs gChild 0) :=
  ⟨(C6_counter_args_cases gChild "NOPE").1 (by decide),
   (C6_counter_args_cases gChild "B").2.1 1 (by decide) (by decide),
   (C6_counter_args_cases gChild "A").2.2 0 (by decide) (by decide)⟩

/-- C7: node equality is label-hash equality; under the assumption that
the hash does not collide on the two labels at hand, two nodes are equal
iff their labels are equal, and the hash of a node is a function of its
label alone. -/
theorem C7_eq_iff_label (h : String → Int) (A B : GraphNode)
    (hcoll : nodeHash h A = nodeHash h B → A.label = B.label) :
    (nodeEq h A B = true ↔ A.label = B.label) ∧
    (A.label = B.label → nodeHash h A = nodeHash h B) := by
  constructor
  · constructor
    · intro he
      exact hcoll (of_decide_eq_true he)
    · intro hl
      apply decide_eq_true
      unfold nodeHash
      rw [hl]
  · intro hl
    unfold nodeHash
    rw [hl]

/-- C7, witness: the equality theorem at the concrete hash `strHashLen`
and the nodes labelled `"A"` and `"BB"`, whose hashes differ. -/
theorem C7_eq_iff_label_witness :
    (nodeEq strHashLen nodeA nodeBB = true ↔ nodeA.label = nodeBB.label) ∧
    (nodeA.label = nodeBB.label → nodeHash strHashLen nodeA = nodeHash strHashLen nodeBB) :=
  C7_eq_iff_label strHashLen nodeA nodeBB (by decide)

/-- C8: resolution never fails — the constraint check passes on every
graph — and a node all of whose parent labels resolve to no node ends up
with empty `parent_nodes`; unresolved labels are simply dropped. -/
theorem C8_dangling_tolerated (g : ArgumentGraph) (i : Nat)
    (hi : i < numNodes g)
    (hdang : ∀ p ∈ (nodeAt g i).parents, getNodeForLabel g p = none) :
    checkConstraints g ∧ parentObjs g i = [] := by
  refine ⟨checkConstraints_holds g, ?_⟩
  have hnone : ∀ p ∈ (nodeAt g i).parents, repIdx g p = none := by
    intro p hp
    have hd := hdang p hp
    unfold getNodeForLabel at hd
    cases hr : repIdx g p with
    | none => rfl
    | some j =>
      rw [hr] at hd
      simp at hd
  unfold parentObjs
  rw [List.filterMap_eq_nil.mpr hnone]
  rfl

/-- C8, witness: the tolerance theorem at `gDangling`, whose single node
lists only the unresolvable parent label `"NO.SUCH.LABEL"`. -/
theorem C8_dangling_tolerated_witness :
    checkConstraints gDangling ∧ parentObjs gDangling 0 = [] :=
  C8_dangling_tolerated gDangling 0 (by decide) (by decide)

/-- C9: two node objects with the same label survive construction — the
constraint check passes, both objects stay in `all_nodes` (the
concatenation of the six partitions in declaration order, with no node
removed) — and the label index resolves the shared label to the object
occurring last, which is what `get_node_for_label` returns. -/
theorem C9_duplicate_labels_last_wins (g : ArgumentGraph) (i j : Nat)
    (hij : i < j) (hj : j < numNodes g) (hlab : labelAt g i = labelAt g j)
    (hlast : ∀ k, j < k → k < numNodes g → labelAt g k ≠ labelAt g j) :
    checkConstraints g ∧
    getNodeForLabel g (labelAt g i) = some (nodeAt g j) ∧
    nodeAt g i ∈ g.all_nodes ∧ nodeAt g j ∈ g.all_nodes ∧
    numNodes g = g.introduction_nodes.length + g.transition_nodes.length +
      g.z_arguments_nodes.length + g.group_nodes.length +
      g.nz_arguments_nodes.length + g.faq_nodes.length := by
  have hrep : repIdx g (labelAt g j) = some j :=
    lastLabelIdx_last g (labelAt g j) (numNodes g) j hj rfl hlast
  refine ⟨checkConstraints_holds g, ?_, nodeAt_mem g (by omega), nodeAt_mem g hj, ?_⟩
  · unfold getNodeForLabel
    rw [hlab, hrep]
    rfl
  · unfold numNodes ArgumentGraph.all_nodes frontNodes
    simp [List.length_append]
    omega

/-- C9, witness: the last-wins theorem at `gDupSimple`, whose two objects
both carry label `"L"` but differ in `full_text`. -/
theorem C9_duplicate_labels_last_wins_witness :
    checkConstraints gDupSimple ∧
    getNodeForLabel gDupSimple (labelAt gDupSimple 0) = some (nodeAt gDupSimple 1) ∧
    nodeAt gDupSimple 0 ∈ gDupSimple.all_nodes ∧
    nodeAt gDupSimple 1 ∈ gDupSimple.all_nodes ∧
    numNodes gDupSimple = gDupSimple.introduction_nodes.length +
      gDupSimple.transition_nodes.length + gDupSimple.z_arguments_nodes.length +
      gDupSimple.group_nodes.length + gDupSimple.nz_arguments_nodes.length +
      gDupSimple.faq_nodes.length :=
  C9_duplicate_labels_last_wins gDupSimple 0 1 (by decide) (by decide) (by decide)
    (fun k hk1 hk2 => by
      have h2 : numNodes gDupSimple = 2 := by decide
      omega)

/-- C10: `as_tuple` is defined only for nodes with at least one group
label: with empty `groups` the `next` call on an empty iterator raises
(modelled as `none`), and with a non-empty `groups` it returns the
six-component tuple built from the node's fields and a group label. -/
theorem C10_as_tuple_cases (n : GraphNode) :
    (n.groups = [] → as_tuple n = none) ∧
    (∀ a t, n.groups = a :: t →
      as_tuple n = some (n.label, n.summary, n.paraphrase, n.full_text, n.rating, a)) := by
  constructor
  · intro h
    unfold as_tuple
    rw [h]
  · intro a t h
    unfold as_tuple
    rw [h]

/-- C10, witness: `as_tuple` at a node without groups and at a node with
the single group `"G"`. -/
theorem C10_as_tuple_cases_witness :
    as_tuple nodeNoGroups = none ∧
    as_tuple nodeOneGroup = some (nodeOneGroup.label, nodeOneGroup.summary,
      nodeOneGroup.paraphrase, nodeOneGroup.full_text, nodeOneGroup.rating, "G") :=
  ⟨(C10_as_tuple_cases nodeNoGroups).1 rfl,
   (C10_as_tuple_cases nodeOneGroup).2 "G" [] rfl⟩

end ADEA
